import Mathlib

/-!
Verification of the directory-synchronisation scripts `src/v1.py` and `src/v2.py`.

The two scripts compare a local directory tree against remote trees over SFTP,
classify every relative path as added / deleted / modified / unchanged by content
checksum, and optionally delete remote files after operator confirmation.

The embedding below translates each Python function into a Lean definition:
  * bytes are `Nat`s, byte strings are `List Nat`;
  * the incremental hash object of `hashlib` is an accumulator of the bytes fed
    so far, with an abstract digest function `H : List Nat → List Nat` standing
    for the chosen algorithm (default sha256); `hexdigest` renders the digest
    bytes as lowercase hexadecimal exactly as `hashlib`'s `hexdigest()` does;
  * Python dicts mapping relative path to a record holding `checksum` are
    association lists `FilesDict`; `set(d.keys())` is `keyset d` and
    `d[k]['checksum']` is `getChecksum d k`;
  * exceptions are `Except String`;
  * the effectful orchestrator is modelled as a trace of `Event`s parametrised
    by an environment describing the external collaborators (local filesystem,
    SSH connection, remote tree, operator answers, remote delete outcomes).
-/

/-- A hash algorithm, abstractly: a function from the full byte sequence fed to
the accumulator to the digest bytes.  `hashlib`'s documented incremental
property (feeding chunks is the same as feeding their concatenation) is what
makes this a faithful model of `hash_func.update`/`hexdigest`. -/
def HashAlg : Type := List Nat → List Nat

/-- Lowercase hexadecimal character for a value below 16. -/
def hexDigit (n : Nat) : Char :=
  if n < 10 then Char.ofNat (48 + n) else Char.ofNat (87 + n % 16)

/-- Two lowercase hex characters of one digest byte, as `hexdigest()` renders it. -/
def byteToHex (b : Nat) : List Char :=
  [hexDigit ((b / 16) % 16), hexDigit (b % 16)]

/-- `hash_func.hexdigest()` after the whole byte sequence `acc` has been fed:
the digest bytes rendered as a lowercase hexadecimal string. -/
def hexdigest (H : HashAlg) (acc : List Nat) : String :=
  String.mk (List.flatten ((H acc).map byteToHex))

/-- The read loop of `calculate_local_checksum` (src/v1.py lines 9-11, identical
in v2.py): `for chunk in iter(lambda: f.read(chunkSize), b'')` feeds each chunk
into the accumulator and stops at the first empty read.  `f.read n` on the
remaining bytes `data` returns `data.take n`.  The source fixes `chunkSize` to
4096; the engine is stated over any chunk size. -/
def feedIter (chunkSize : Nat) (acc data : List Nat) : List Nat :=
  if data.take chunkSize = [] then acc
  else feedIter chunkSize (acc ++ data.take chunkSize) (data.drop chunkSize)
termination_by data.length
decreasing_by
  simp only [List.length_drop]
  have h1 : (data.take chunkSize).length ≠ 0 := by
    intro h
    exact ‹¬data.take chunkSize = []› (List.length_eq_zero.mp h)
  rw [List.length_take] at h1
  omega

/-- The read loop of `calculate_remote_checksum` (src/v1.py lines 18-22,
identical in v2.py): `while True: data = f.read(chunkSize); if not data: break;
hash_func.update(data)`. -/
def feedWhile (chunkSize : Nat) (acc data : List Nat) : List Nat :=
  if data.take chunkSize = [] then acc
  else feedWhile chunkSize (acc ++ data.take chunkSize) (data.drop chunkSize)
termination_by data.length
decreasing_by
  simp only [List.length_drop]
  have h1 : (data.take chunkSize).length ≠ 0 := by
    intro h
    exact ‹¬data.take chunkSize = []› (List.length_eq_zero.mp h)
  rw [List.length_take] at h1
  omega

/-- The checksum engine at an arbitrary chunk size: the source's functions are
this with `chunkSize = 4096`. -/
def checksumWithChunkSize (H : HashAlg) (chunkSize : Nat) (data : List Nat) : String :=
  hexdigest H (feedIter chunkSize [] data)

namespace v1

/-- src/v1.py lines 6-12, `calculate_local_checksum`: open the file, feed it to
the hash in 4096-byte chunks, return the hex digest.  `data` is the file's
byte content as the reads deliver it. -/
def calculate_local_checksum (H : HashAlg) (data : List Nat) : String :=
  hexdigest H (feedIter 4096 [] data)

/-- src/v1.py lines 14-23, `calculate_remote_checksum`: stream the remote file
over SFTP in 4096-byte chunks and return the hex digest. -/
def calculate_remote_checksum (H : HashAlg) (data : List Nat) : String :=
  hexdigest H (feedWhile 4096 [] data)

end v1

namespace v2

/-- src/v2.py lines 22-28, `calculate_local_checksum` (textually identical to
v1's). -/
def calculate_local_checksum (H : HashAlg) (data : List Nat) : String :=
  hexdigest H (feedIter 4096 [] data)

/-- src/v2.py lines 30-39, `calculate_remote_checksum` (textually identical to
v1's). -/
def calculate_remote_checksum (H : HashAlg) (data : List Nat) : String :=
  hexdigest H (feedWhile 4096 [] data)

end v2

/-- A Python dict mapping relative path to its file record, keeping only the
`checksum` field (the remote records also carry `full_path`, which no consumer
in either script reads: `compare_files` reads only `checksum` and
`delete_remote_files` re-joins the base path itself). -/
abbrev FilesDict : Type := List (String × String)

/-- `set(d.keys())`. -/
def keyset (d : FilesDict) : Finset String :=
  (d.map Prod.fst).toFinset

/-- `d[k]['checksum']` for a key of the dict (out-of-dict lookup, which the
scripts never perform, defaults to `""`). -/
def getChecksum (d : FilesDict) (k : String) : String :=
  (((d.find? (fun p => p.1 == k))).map Prod.snd).getD ""

namespace v1

/-- src/v1.py lines 56-68, `compare_files`: set difference on the key sets and
checksum comparison on the intersection. -/
def compare_files (source_files dest_files : FilesDict) :
    Finset String × Finset String × Finset String :=
  let source_set := keyset source_files
  let dest_set := keyset dest_files
  let added := source_set \ dest_set
  let deleted := dest_set \ source_set
  let modified := (source_set ∩ dest_set).filter
    (fun file => getChecksum source_files file ≠ getChecksum dest_files file)
  (added, deleted, modified)

end v1

namespace v2

/-- src/v2.py lines 67-79, `compare_files` (textually identical to v1's). -/
def compare_files (source_files dest_files : FilesDict) :
    Finset String × Finset String × Finset String :=
  let source_set := keyset source_files
  let dest_set := keyset dest_files
  let added := source_set \ dest_set
  let deleted := dest_set \ source_set
  let modified := (source_set ∩ dest_set).filter
    (fun file => getChecksum source_files file ≠ getChecksum dest_files file)
  (added, deleted, modified)

/-- src/v2.py line 132: `set(source_files.keys()) & set(dest_files.keys()) -
modified`.  Python's `-` binds tighter than `&`, so this parses as
`S & (D - modified)`. -/
def unchanged_expr (source_files dest_files : FilesDict) (modified : Finset String) :
    Finset String :=
  keyset source_files ∩ (keyset dest_files \ modified)

end v2

/-- The two `compare_files` definitions are the same function (the source lines
are textually identical). -/
theorem compare_files_v2_eq_v1 : v2.compare_files = v1.compare_files := rfl

/-- Core spec of `compare_files`, shared between the claims about the differ. -/
theorem compare_files_props (s d : FilesDict) :
    (v1.compare_files s d).1 = keyset s \ keyset d ∧
    (v1.compare_files s d).2.1 = keyset d \ keyset s ∧
    (v1.compare_files s d).2.2 =
      (keyset s ∩ keyset d).filter (fun k => getChecksum s k ≠ getChecksum d k) ∧
    (v1.compare_files s d).1 ∩ (v1.compare_files s d).2.1 = ∅ ∧
    (v1.compare_files s d).1 ∩ (v1.compare_files s d).2.2 = ∅ ∧
    (v1.compare_files s d).2.1 ∩ (v1.compare_files s d).2.2 = ∅ := by
  refine ⟨rfl, rfl, rfl, ?_, ?_, ?_⟩
  · ext x
    simp only [v1.compare_files, Finset.mem_inter, Finset.mem_sdiff,
      Finset.not_mem_empty, iff_false]
    tauto
  · ext x
    simp only [v1.compare_files, Finset.mem_inter, Finset.mem_sdiff,
      Finset.mem_filter, Finset.not_mem_empty, iff_false]
    tauto
  · ext x
    simp only [v1.compare_files, Finset.mem_inter, Finset.mem_sdiff,
      Finset.mem_filter, Finset.not_mem_empty, iff_false]
    tauto

/-- C1: for every pair of snapshots, `compare_files` (in both v1 and v2)
returns `added = keys(source) − keys(destination)`,
`deleted = keys(destination) − keys(source)`, and `modified` = the keys common
to both whose checksums differ; consequently the three sets are pairwise
disjoint. -/
theorem c1_compare_files_sets_and_disjoint (s d : FilesDict) :
    ((v1.compare_files s d).1 = keyset s \ keyset d ∧
     (v1.compare_files s d).2.1 = keyset d \ keyset s ∧
     (v1.compare_files s d).2.2 =
       (keyset s ∩ keyset d).filter (fun k => getChecksum s k ≠ getChecksum d k) ∧
     (v1.compare_files s d).1 ∩ (v1.compare_files s d).2.1 = ∅ ∧
     (v1.compare_files s d).1 ∩ (v1.compare_files s d).2.2 = ∅ ∧
     (v1.compare_files s d).2.1 ∩ (v1.compare_files s d).2.2 = ∅) ∧
    ((v2.compare_files s d).1 = keyset s \ keyset d ∧
     (v2.compare_files s d).2.1 = keyset d \ keyset s ∧
     (v2.compare_files s d).2.2 =
       (keyset s ∩ keyset d).filter (fun k => getChecksum s k ≠ getChecksum d k) ∧
     (v2.compare_files s d).1 ∩ (v2.compare_files s d).2.1 = ∅ ∧
     (v2.compare_files s d).1 ∩ (v2.compare_files s d).2.2 = ∅ ∧
     (v2.compare_files s d).2.1 ∩ (v2.compare_files s d).2.2 = ∅) :=
  ⟨compare_files_props s d, compare_files_props s d⟩

/-- C7: comparing a snapshot against itself (in both v1 and v2) yields empty
added, deleted and modified sets. -/
theorem c7_diff_self_empty (s : FilesDict) :
    v1.compare_files s s = (∅, ∅, ∅) ∧ v2.compare_files s s = (∅, ∅, ∅) := by
  constructor <;>
  · simp only [v1.compare_files, v2.compare_files, Finset.sdiff_self]
    refine congrArg _ (congrArg _ ?_)
    apply Finset.filter_eq_empty_iff.mpr
    intro x _
    simp

/-- C6: the `unchanged` expression of v2 (which parses as
`S ∩ (D − modified)`) equals the spec's `(S ∩ D) − modified`. -/
theorem c6_unchanged_expression_matches_spec (s d : FilesDict) :
    v2.unchanged_expr s d (v2.compare_files s d).2.2 =
      (keyset s ∩ keyset d) \ (v2.compare_files s d).2.2 := by
  ext x
  simp only [v2.unchanged_expr, Finset.mem_inter, Finset.mem_sdiff]
  tauto

/-- Feeding a stream in chunks of any positive size accumulates exactly the
stream's bytes (the `for chunk in iter(...)` loop). -/
theorem feedIter_eq_append (chunkSize : Nat) (hcs : 1 ≤ chunkSize) :
    ∀ data acc : List Nat, feedIter chunkSize acc data = acc ++ data := by
  have key : ∀ n : Nat, ∀ data acc : List Nat, data.length ≤ n →
      feedIter chunkSize acc data = acc ++ data := by
    intro n
    induction n with
    | zero =>
      intro data acc h
      have hd : data = [] := List.length_eq_zero.mp (Nat.le_zero.mp h)
      subst hd
      rw [feedIter]
      simp
    | succ n ih =>
      intro data acc h
      rw [feedIter]
      by_cases hnil : data.take chunkSize = []
      · rw [if_pos hnil]
        rcases List.take_eq_nil_iff.mp hnil with h0 | h0
        · omega
        · simp [h0]
      · rw [if_neg hnil]
        have hlen : data.length ≠ 0 := by
          intro h0
          exact hnil (by simp [List.length_eq_zero.mp h0])
        rw [ih (data.drop chunkSize) (acc ++ data.take chunkSize)
          (by simp only [List.length_drop]; omega)]
        rw [List.append_assoc, List.take_append_drop]
  intro data acc
  exact key data.length data acc le_rfl

/-- Same accumulation fact for the `while True / break` loop. -/
theorem feedWhile_eq_append (chunkSize : Nat) (hcs : 1 ≤ chunkSize) :
    ∀ data acc : List Nat, feedWhile chunkSize acc data = acc ++ data := by
  have key : ∀ n : Nat, ∀ data acc : List Nat, data.length ≤ n →
      feedWhile chunkSize acc data = acc ++ data := by
    intro n
    induction n with
    | zero =>
      intro data acc h
      have hd : data = [] := List.length_eq_zero.mp (Nat.le_zero.mp h)
      subst hd
      rw [feedWhile]
      simp
    | succ n ih =>
      intro data acc h
      rw [feedWhile]
      by_cases hnil : data.take chunkSize = []
      · rw [if_pos hnil]
        rcases List.take_eq_nil_iff.mp hnil with h0 | h0
        · omega
        · simp [h0]
      · rw [if_neg hnil]
        have hlen : data.length ≠ 0 := by
          intro h0
          exact hnil (by simp [List.length_eq_zero.mp h0])
        rw [ih (data.drop chunkSize) (acc ++ data.take chunkSize)
          (by simp only [List.length_drop]; omega)]
        rw [List.append_assoc, List.take_append_drop]
  intro data acc
  exact key data.length data acc le_rfl

/-- Membership in the alphabet of `hexdigest()`: a decimal digit or one of the
lowercase letters up to `f`. -/
abbrev isLowerHexDigit (c : Char) : Prop :=
  ('0' ≤ c ∧ c ≤ '9') ∨ ('a' ≤ c ∧ c ≤ 'f')

theorem hexDigit_is_lower_hex (n : Nat) (h : n < 16) : isLowerHexDigit (hexDigit n) := by
  interval_cases n <;> decide

theorem hexdigest_chars_lower_hex (H : HashAlg) (acc : List Nat) :
    ∀ c ∈ (hexdigest H acc).data, isLowerHexDigit c := by
  intro c hc
  have hc2 : c ∈ List.flatten ((H acc).map byteToHex) := hc
  rcases List.mem_flatten.mp hc2 with ⟨lc, hlc, hcl⟩
  rcases List.mem_map.mp hlc with ⟨b, _, rfl⟩
  simp only [byteToHex, List.mem_cons, List.mem_singleton] at hcl
  rcases hcl with rfl | rfl | hfalse
  · exact hexDigit_is_lower_hex _ (Nat.mod_lt _ (by norm_num))
  · exact hexDigit_is_lower_hex _ (Nat.mod_lt _ (by norm_num))
  · exact absurd hfalse (List.not_mem_nil c)

/-- C5: the digest is independent of the chunk size used to read the stream
(chunk sizes 1, 4096 and 1,000,000 agree), the local-read loop and the
remote-stream loop produce equal digests on byte-identical content, and every
digest character is a lowercase hexadecimal character. -/
theorem c5_checksum_chunk_invariance (H : HashAlg) (data : List Nat) :
    checksumWithChunkSize H 1 data = checksumWithChunkSize H 4096 data ∧
    checksumWithChunkSize H 1000000 data = checksumWithChunkSize H 4096 data ∧
    v1.calculate_local_checksum H data = v1.calculate_remote_checksum H data ∧
    ∀ c ∈ (v1.calculate_local_checksum H data).data, isLowerHexDigit c := by
  refine ⟨?_, ?_, ?_, ?_⟩
  · simp only [checksumWithChunkSize,
      feedIter_eq_append 1 (by norm_num) data [],
      feedIter_eq_append 4096 (by norm_num) data []]
  · simp only [checksumWithChunkSize,
      feedIter_eq_append 1000000 (by norm_num) data [],
      feedIter_eq_append 4096 (by norm_num) data []]
  · simp only [v1.calculate_local_checksum, v1.calculate_remote_checksum,
      feedIter_eq_append 4096 (by norm_num) data [],
      feedWhile_eq_append 4096 (by norm_num) data []]
  · exact hexdigest_chars_lower_hex H _

/-- C10: the core functions of v2 are extensionally equal to those of v1:
`compare_files` returns the same triple on every pair of snapshots, and the
two checksum functions return the same digest on every byte source. -/
theorem c10_v2_core_equals_v1 :
    (∀ s d : FilesDict, v2.compare_files s d = v1.compare_files s d) ∧
    (∀ (H : HashAlg) (data : List Nat),
      v2.calculate_local_checksum H data = v1.calculate_local_checksum H data) ∧
    (∀ (H : HashAlg) (data : List Nat),
      v2.calculate_remote_checksum H data = v1.calculate_remote_checksum H data) :=
  ⟨fun _ _ => rfl, fun _ _ => rfl, fun _ _ => rfl⟩

/-- A node of the remote tree as the SFTP collaborator serves it: a regular
file whose open/read either yields its bytes or raises, a directory whose
`listdir_attr` yields its entries (name paired with node), or a directory whose
`listdir_attr` raises. -/
inductive RemoteNode where
  | file (data : Except String (List Nat))
  | dir (entries : List (String × RemoteNode))
  | dirFail (msg : String)

/-- `str(relative_root / name)` for the relative roots `recursive_list` builds:
the accumulator starts at `Path('.')`, and `pathlib` renders `Path('.') / name`
as `name` and deeper joins with a slash. -/
def joinRel (root name : String) : String :=
  if root = "." then name else root ++ "/" ++ name

mutual

/-- One entry of `recursive_list` (src/v1.py lines 41-51, v2.py identical): a
directory entry recurses with the extended relative path, a file entry is
checksummed via `calculate_remote_checksum` and recorded; a failing listing or
read raises, aborting the whole scan. -/
def scanEntry (H : HashAlg) (full_path rel_path : String) :
    RemoteNode → Except String FilesDict
  | .file (.error e) => .error e
  | .file (.ok d) => .ok [(rel_path, v1.calculate_remote_checksum H d)]
  | .dirFail e => .error e
  | .dir entries => scanEntries H full_path rel_path entries

/-- The `for entry in sftp.listdir_attr(path)` loop of `recursive_list`:
entries are processed in listing order and their file records accumulate in
traversal order; the first exception propagates. -/
def scanEntries (H : HashAlg) (path rel : String) :
    List (String × RemoteNode) → Except String FilesDict
  | [] => .ok []
  | (name, node) :: rest =>
    match scanEntry H (path ++ "/" ++ name) (joinRel rel name) node with
    | .error e => .error e
    | .ok files1 =>
      match scanEntries H path rel rest with
      | .error e => .error e
      | .ok files2 => .ok (files1 ++ files2)

end

/-- src/v1.py lines 36-54 (v2.py 50-65 identical), `get_remote_files`:
`recursive_list(base_path, Path('.'))` over the root listing that
`sftp.listdir_attr(base_path)` returns (or the exception it raises). -/
def get_remote_files (H : HashAlg)
    (rootListing : Except String (List (String × RemoteNode)))
    (base_path : String) : Except String FilesDict :=
  match rootListing with
  | .error e => .error e
  | .ok entries => scanEntries H base_path "." entries

/-- src/v1.py lines 25-34 (v2.py 41-48 identical), `get_local_files`: the local
filesystem is modelled as the list of regular files `rglob` enumerates, each a
relative path with its byte content; every file is checksummed via
`calculate_local_checksum`. -/
def get_local_files (H : HashAlg) (localTree : List (String × List Nat)) : FilesDict :=
  localTree.map (fun f => (f.1, v1.calculate_local_checksum H f.2))

/-- Outcome of one `sftp.remove(path)` call: success, `FileNotFoundError`, or
any other exception with its message. -/
inductive DeleteOutcome where
  | ok
  | notFound
  | otherError (msg : String)
deriving DecidableEq

/-- The per-path report line `delete_remote_files` emits: removal logged, the
informational not-found message, or the error message. -/
inductive DelEvent where
  | removed (abs_path : String)
  | notFoundMsg (abs_path : String)
  | errorMsg (abs_path msg : String)
deriving DecidableEq

/-- src/v1.py lines 70-80 (v2.py 81-91 identical up to the logging helper),
`delete_remote_files`: for each path join the remote base path, attempt
`sftp.remove`, catch `FileNotFoundError` as informational and any other
exception as an error, and continue with the remaining paths. -/
def delete_remote_files (remove : String → DeleteOutcome) :
    List String → String → List DelEvent
  | [], _ => []
  | file :: rest, remote_base_path =>
    (match remove (remote_base_path ++ "/" ++ file) with
     | .ok => DelEvent.removed (remote_base_path ++ "/" ++ file)
     | .notFound => DelEvent.notFoundMsg (remote_base_path ++ "/" ++ file)
     | .otherError e => DelEvent.errorMsg (remote_base_path ++ "/" ++ file) e) ::
    delete_remote_files remove rest remote_base_path

/-- The parameters of `compare_directories` (src/v1.py line 82, v2.py line
93). -/
structure Config where
  source_path : String
  servers : List String
  remote_path : String
  username : String
  key_path : Option String
  password : Option String
  auto_delete : Bool

/-- The external collaborators of one run: the hash algorithm, the local
filesystem under `source_path`, and per server the connection outcome
(`ssh.connect` plus `open_sftp`), the remote root listing, the operator's
answer to the confirmation prompt, and the outcome of each remote delete. -/
structure Env where
  H : HashAlg
  localTree : List (String × List Nat)
  connect : String → Except String Unit
  remoteRoot : String → Except String (List (String × RemoteNode))
  confirm : String → String
  remove : String → String → DeleteOutcome

/-- An observable step of `compare_directories`: the local scan, the per-server
header line, the diff report, the confirmation prompt (keyed to the count of
paths to delete), the call into `delete_remote_files` with its per-path
reports, the skip message, the caught-error message of the `except` block, and
the two releases. -/
inductive Event where
  | localScan
  | header (server : String)
  | reportDiff (added deleted modified : Finset String)
  | prompt (server : String) (count : Nat)
  | deleteCall (server : String) (paths : Finset String)
  | del (e : DelEvent)
  | skippedDeletion
  | errorCaught (server msg : String)
  | sftpClosed (server : String)
  | sshClosed (server : String)
deriving DecidableEq

/-- Python's `confirm.lower()`: every character lowercased.  (`String.toLower`
is extensionally the same but is defined by well-founded recursion over byte
positions; this structural form keeps the model executable by reduction.) -/
def strLower (s : String) : String :=
  String.mk (s.data.map Char.toLower)

/-- src/v1.py lines 107-112 (v2.py 137-142 identical): the guarded deletion
block.  `if auto_delete and deleted:` asks for confirmation; only the answer
`'tak'` (case-insensitively) triggers `delete_remote_files`.  Python iterates
the `deleted` set in unspecified order; the model fixes the sorted order. -/
def deleteBlock (cfg : Config) (env : Env) (server : String)
    (deleted : Finset String) : List Event :=
  if cfg.auto_delete = true ∧ deleted.Nonempty then
    Event.prompt server deleted.card ::
    (if strLower (env.confirm server) = "tak" then
      Event.deleteCall server deleted ::
        (delete_remote_files (env.remove server) (deleted.sort (· ≤ ·)) cfg.remote_path).map Event.del
    else [Event.skippedDeletion])
  else []

/-- src/v1.py lines 91-116 (v2.py 102-146): the body of the `try` statement of
one server's iteration together with its `except` handler: connect, scan the
remote tree, diff against the local snapshot, report, run the guarded deletion
block, close the SFTP channel; any exception raised on the way is caught and
logged as the per-server error line. -/
def tryBlock (cfg : Config) (env : Env) (source_files : FilesDict)
    (server : String) : List Event :=
  match env.connect server with
  | .error e => [Event.errorCaught server e]
  | .ok _ =>
    match get_remote_files env.H (env.remoteRoot server) cfg.remote_path with
    | .error e => [Event.errorCaught server e]
    | .ok dest_files =>
      let diff := v1.compare_files source_files dest_files
      Event.reportDiff diff.1 diff.2.1 diff.2.2 ::
      (deleteBlock cfg env server diff.2.1 ++ [Event.sftpClosed server])

/-- One iteration of the `for server in servers` loop (src/v1.py lines 86-118,
v2.py 97-148): print the header, run the `try` body with its handler, and in
the `finally` clause release the SSH client (which owns the SFTP channel). -/
def processServer (cfg : Config) (env : Env) (source_files : FilesDict)
    (server : String) : List Event :=
  Event.header server :: (tryBlock cfg env source_files server ++ [Event.sshClosed server])

/-- src/v1.py lines 82-118 (v2.py 93-148), `compare_directories`: compute the
local snapshot once, then process every server in order. -/
def compare_directories (cfg : Config) (env : Env) : List Event :=
  let source_files := get_local_files env.H env.localTree
  Event.localScan :: cfg.servers.flatMap (processServer cfg env source_files)

/-- C3: `delete_remote_files` attempts deletion of every path, in order, and
returns normally: the event at index `i` is exactly the classification of the
outcome of removing the `i`-th path (removed, not-found informational, or
error), so a failure on one path never aborts the remaining paths and never
escapes to the caller. -/
theorem c3_delete_remote_files_processes_all
    (remove : String → DeleteOutcome) (files : List String) (base : String) :
    (delete_remote_files remove files base).length = files.length ∧
    ∀ (i : Nat) (file : String), files[i]? = some file →
      (delete_remote_files remove files base)[i]? =
        some (match remove (base ++ "/" ++ file) with
              | .ok => DelEvent.removed (base ++ "/" ++ file)
              | .notFound => DelEvent.notFoundMsg (base ++ "/" ++ file)
              | .otherError e => DelEvent.errorMsg (base ++ "/" ++ file) e) := by
  constructor
  · induction files with
    | nil => rfl
    | cons f rest ih => simp [delete_remote_files, ih]
  · intro i file hfile
    induction files generalizing i with
    | nil => simp at hfile
    | cons f rest ih =>
      cases i with
      | zero =>
        rw [List.getElem?_cons_zero] at hfile
        cases hfile
        simp only [delete_remote_files, List.getElem?_cons_zero]
      | succ n =>
        rw [List.getElem?_cons_succ] at hfile
        simp only [delete_remote_files, List.getElem?_cons_succ]
        exact ih n hfile

/-- Witness for C3 at the spec's scenario: remediating `deleted = [c.txt]`
when the file has already vanished reports the informational not-found
message and returns normally. -/
theorem c3_delete_witness :
    (delete_remote_files (fun _ => DeleteOutcome.notFound) ["c.txt"] "/remote")[0]? =
      some (DelEvent.notFoundMsg "/remote/c.txt") := by
  have h := (c3_delete_remote_files_processes_all (fun _ => DeleteOutcome.notFound)
    ["c.txt"] "/remote").2 0 "c.txt" rfl
  exact h

theorem tryBlock_conn_error {cfg : Config} {env : Env} {src : FilesDict}
    {server e : String} (h : env.connect server = .error e) :
    tryBlock cfg env src server = [Event.errorCaught server e] := by
  unfold tryBlock
  rw [h]

theorem tryBlock_scan_error {cfg : Config} {env : Env} {src : FilesDict}
    {server : String} {u : Unit} {e : String}
    (hc : env.connect server = .ok u)
    (hs : get_remote_files env.H (env.remoteRoot server) cfg.remote_path = .error e) :
    tryBlock cfg env src server = [Event.errorCaught server e] := by
  unfold tryBlock
  rw [hc, hs]

theorem tryBlock_ok {cfg : Config} {env : Env} {src : FilesDict}
    {server : String} {u : Unit} {dest_files : FilesDict}
    (hc : env.connect server = .ok u)
    (hs : get_remote_files env.H (env.remoteRoot server) cfg.remote_path = .ok dest_files) :
    tryBlock cfg env src server =
      Event.reportDiff (v1.compare_files src dest_files).1
        (v1.compare_files src dest_files).2.1 (v1.compare_files src dest_files).2.2 ::
      (deleteBlock cfg env server (v1.compare_files src dest_files).2.1 ++
        [Event.sftpClosed server]) := by
  unfold tryBlock
  rw [hc, hs]

theorem deleteCall_mem_deleteBlock {cfg : Config} {env : Env}
    {server s : String} {d del : Finset String}
    (h : Event.deleteCall s d ∈ deleteBlock cfg env server del) :
    cfg.auto_delete = true ∧ del.Nonempty ∧ strLower (env.confirm server) = "tak" ∧
      s = server ∧ d = del := by
  unfold deleteBlock at h
  split at h
  case isTrue hcond =>
    rcases List.mem_cons.mp h with h1 | h1
    · simp at h1
    · split at h1
      case isTrue htak =>
        rcases List.mem_cons.mp h1 with h2 | h2
        · simp only [Event.deleteCall.injEq] at h2
          exact ⟨hcond.1, hcond.2, htak, h2.1, h2.2⟩
        · rcases List.mem_map.mp h2 with ⟨x, _, hx⟩
          simp at hx
      case isFalse => simp at h1
  case isFalse => simp at h

theorem prompt_mem_deleteBlock {cfg : Config} {env : Env}
    {server : String} {del : Finset String}
    (hauto : cfg.auto_delete = true) (hne : del.Nonempty) :
    Event.prompt server del.card ∈ deleteBlock cfg env server del := by
  unfold deleteBlock
  rw [if_pos ⟨hauto, hne⟩]
  exact List.mem_cons_self _ _

/-- C2: remote deletion is invoked only when the auto-delete flag is on, the
deleted set is non-empty, and the operator's answer to the prompt was the
affirmative `tak`; and in that case the prompt (keyed to the count of paths)
did occur in the trace. -/
theorem c2_delete_gated_by_confirmation (cfg : Config) (env : Env)
    (s : String) (d : Finset String)
    (hmem : Event.deleteCall s d ∈ compare_directories cfg env) :
    cfg.auto_delete = true ∧ d.Nonempty ∧ strLower (env.confirm s) = "tak" ∧
      Event.prompt s d.card ∈ compare_directories cfg env := by
  simp only [compare_directories] at hmem ⊢
  rcases List.mem_cons.mp hmem with h | h
  · simp at h
  rcases List.mem_flatMap.mp h with ⟨server, hserver, hblock⟩
  simp only [processServer] at hblock
  rcases List.mem_cons.mp hblock with h2 | h2
  · simp at h2
  rcases List.mem_append.mp h2 with h3 | h3
  case inr => simp at h3
  cases hconn : env.connect server with
  | error e =>
    rw [tryBlock_conn_error hconn] at h3
    simp at h3
  | ok u =>
    cases hscan : get_remote_files env.H (env.remoteRoot server) cfg.remote_path with
    | error e =>
      rw [tryBlock_scan_error hconn hscan] at h3
      simp at h3
    | ok dest_files =>
      rw [tryBlock_ok hconn hscan] at h3
      rcases List.mem_cons.mp h3 with h4 | h4
      · simp at h4
      rcases List.mem_append.mp h4 with h5 | h5
      case inr => simp at h5
      obtain ⟨hauto, hne, htak, rfl, rfl⟩ := deleteCall_mem_deleteBlock h5
      refine ⟨hauto, hne, htak, ?_⟩
      apply List.mem_cons_of_mem
      apply List.mem_flatMap.mpr
      refine ⟨s, hserver, ?_⟩
      simp only [processServer]
      apply List.mem_cons_of_mem
      apply List.mem_append_left
      rw [tryBlock_ok hconn hscan]
      apply List.mem_cons_of_mem
      apply List.mem_append_left
      exact prompt_mem_deleteBlock hauto hne

/-- C4: a connection or scan error on one target is caught at the orchestrator
boundary: every configured server still gets its header line (the loop reaches
every target), and a failing target's whole iteration is exactly the header,
the logged error message, and the session release — no diff is computed or
reported for it. -/
theorem c4_per_target_errors_contained (cfg : Config) (env : Env) :
    (∀ server ∈ cfg.servers, Event.header server ∈ compare_directories cfg env) ∧
    (∀ server e, env.connect server = .error e →
      processServer cfg env (get_local_files env.H env.localTree) server =
        [Event.header server, Event.errorCaught server e, Event.sshClosed server]) ∧
    (∀ server u e, env.connect server = .ok u →
      get_remote_files env.H (env.remoteRoot server) cfg.remote_path = .error e →
      processServer cfg env (get_local_files env.H env.localTree) server =
        [Event.header server, Event.errorCaught server e, Event.sshClosed server]) := by
  refine ⟨?_, ?_, ?_⟩
  · intro server hs
    simp only [compare_directories]
    apply List.mem_cons_of_mem
    apply List.mem_flatMap.mpr
    exact ⟨server, hs, List.mem_cons_self _ _⟩
  · intro server e h
    simp only [processServer, tryBlock_conn_error h]
    rfl
  · intro server u e hc hs
    simp only [processServer, tryBlock_scan_error hc hs]
    rfl

/-- C8: on every exit path of a target's iteration — the ok path as well as the
error path — the last event of the iteration is the session release of the
`finally` clause (the SSH client, which owns the SFTP channel); and the run is
the sequential concatenation of the per-server iterations, so the release
precedes the next target's processing. -/
theorem c8_session_released_every_path (cfg : Config) (env : Env) :
    (∀ (source_files : FilesDict) (server : String),
      (processServer cfg env source_files server).getLast? =
        some (Event.sshClosed server)) ∧
    compare_directories cfg env =
      Event.localScan ::
        cfg.servers.flatMap
          (processServer cfg env (get_local_files env.H env.localTree)) := by
  constructor
  · intro src server
    show (Event.header server ::
      (tryBlock cfg env src server ++ [Event.sshClosed server])).getLast? = _
    rw [← List.cons_append]
    exact List.getLast?_concat _
  · rfl

theorem localScan_not_mem_deleteBlock {cfg : Config} {env : Env}
    {server : String} {del : Finset String} :
    Event.localScan ∉ deleteBlock cfg env server del := by
  intro h
  unfold deleteBlock at h
  split at h
  · rcases List.mem_cons.mp h with h1 | h1
    · simp at h1
    · split at h1
      · rcases List.mem_cons.mp h1 with h2 | h2
        · simp at h2
        · rcases List.mem_map.mp h2 with ⟨x, _, hx⟩
          simp at hx
      · simp at h1
  · simp at h

theorem localScan_not_mem_processServer {cfg : Config} {env : Env}
    {src : FilesDict} {server : String} :
    Event.localScan ∉ processServer cfg env src server := by
  intro h
  simp only [processServer] at h
  rcases List.mem_cons.mp h with h1 | h1
  · simp at h1
  rcases List.mem_append.mp h1 with h2 | h2
  case inr => simp at h2
  cases hconn : env.connect server with
  | error e =>
    rw [tryBlock_conn_error hconn] at h2
    simp at h2
  | ok u =>
    cases hscan : get_remote_files env.H (env.remoteRoot server) cfg.remote_path with
    | error e =>
      rw [tryBlock_scan_error hconn hscan] at h2
      simp at h2
    | ok dest =>
      rw [tryBlock_ok hconn hscan] at h2
      rcases List.mem_cons.mp h2 with h3 | h3
      · simp at h3
      rcases List.mem_append.mp h3 with h4 | h4
      · exact localScan_not_mem_deleteBlock h4
      · simp at h4

theorem reportDiff_not_mem_deleteBlock {cfg : Config} {env : Env}
    {server : String} {del a d m : Finset String} :
    Event.reportDiff a d m ∉ deleteBlock cfg env server del := by
  intro h
  unfold deleteBlock at h
  split at h
  · rcases List.mem_cons.mp h with h1 | h1
    · simp at h1
    · split at h1
      · rcases List.mem_cons.mp h1 with h2 | h2
        · simp at h2
        · rcases List.mem_map.mp h2 with ⟨x, _, hx⟩
          simp at hx
      · simp at h1
  · simp at h

/-- C9: the local snapshot is computed exactly once, as the very first step of
the run, before any remote target is processed, and every diff the run reports
was computed by `compare_files` against that same snapshot of the local
tree. -/
theorem c9_local_snapshot_once (cfg : Config) (env : Env) :
    (compare_directories cfg env).head? = some Event.localScan ∧
    (compare_directories cfg env).count Event.localScan = 1 ∧
    ∀ a d m, Event.reportDiff a d m ∈ compare_directories cfg env →
      ∃ server ∈ cfg.servers, ∃ dest_files,
        get_remote_files env.H (env.remoteRoot server) cfg.remote_path =
          .ok dest_files ∧
        (a, d, m) = v1.compare_files (get_local_files env.H env.localTree)
          dest_files := by
  refine ⟨rfl, ?_, ?_⟩
  · simp only [compare_directories, List.count_cons_self]
    have hz : (cfg.servers.flatMap
        (processServer cfg env (get_local_files env.H env.localTree))).count
          Event.localScan = 0 := by
      apply List.count_eq_zero.mpr
      intro h
      rcases List.mem_flatMap.mp h with ⟨server, _, hblock⟩
      exact localScan_not_mem_processServer hblock
    omega
  · intro a d m hmem
    simp only [compare_directories] at hmem
    rcases List.mem_cons.mp hmem with h | h
    · simp at h
    rcases List.mem_flatMap.mp h with ⟨server, hserver, hblock⟩
    simp only [processServer] at hblock
    rcases List.mem_cons.mp hblock with h2 | h2
    · simp at h2
    rcases List.mem_append.mp h2 with h3 | h3
    case inr => simp at h3
    cases hconn : env.connect server with
    | error e =>
      rw [tryBlock_conn_error hconn] at h3
      simp at h3
    | ok u =>
      cases hscan : get_remote_files env.H (env.remoteRoot server) cfg.remote_path with
      | error e =>
        rw [tryBlock_scan_error hconn hscan] at h3
        simp at h3
      | ok dest_files =>
        rw [tryBlock_ok hconn hscan] at h3
        rcases List.mem_cons.mp h3 with h4 | h4
        · simp only [Event.reportDiff.injEq] at h4
          refine ⟨server, hserver, dest_files, hscan, ?_⟩
          rw [h4.1, h4.2.1, h4.2.2]
        rcases List.mem_append.mp h4 with h5 | h5
        · exact absurd h5 reportDiff_not_mem_deleteBlock
        · simp at h5

/-- A concrete digest function for the witness runs (digest of no bytes). -/
def wH : HashAlg := fun _ => []

/-- A concrete configuration for the witness runs: two targets, auto-delete
enabled. -/
def wCfg : Config :=
  { source_path := "/src", servers := ["s1", "s2"], remote_path := "/remote",
    username := "u", key_path := none, password := none, auto_delete := true }

/-- A concrete environment for the witness runs: target `s1` is unreachable,
target `s2` serves one file `c.txt` absent from the (empty) local tree, the
operator answers `tak`, and every remote delete hits the not-found race. -/
def wEnv : Env :=
  { H := wH
    localTree := []
    connect := fun server => if server = "s1" then .error "unreachable" else .ok ()
    remoteRoot := fun _ => .ok [("c.txt", RemoteNode.file (.ok []))]
    confirm := fun _ => "tak"
    remove := fun _ _ => DeleteOutcome.notFound }

theorem wEnv_connect_s2 : wEnv.connect "s2" = .ok () := rfl

theorem w_scan_s2 :
    get_remote_files wEnv.H (wEnv.remoteRoot "s2") wCfg.remote_path =
      .ok [("c.txt", "")] := by
  have h : v1.calculate_remote_checksum wH [] = "" := by
    unfold v1.calculate_remote_checksum
    rw [feedWhile]
    rfl
  show get_remote_files wH (.ok [("c.txt", RemoteNode.file (.ok []))]) "/remote" = _
  simp [get_remote_files, scanEntries, scanEntry, joinRel, h]

theorem w_compare :
    v1.compare_files (get_local_files wEnv.H wEnv.localTree) [("c.txt", "")] =
      (∅, {"c.txt"}, ∅) := by decide

theorem w_deleteCall_mem :
    Event.deleteCall "s2" {"c.txt"} ∈ compare_directories wCfg wEnv := by
  simp only [compare_directories]
  apply List.mem_cons_of_mem
  apply List.mem_flatMap.mpr
  refine ⟨"s2", by decide, ?_⟩
  simp only [processServer]
  apply List.mem_cons_of_mem
  apply List.mem_append_left
  rw [tryBlock_ok wEnv_connect_s2 w_scan_s2, w_compare]
  apply List.mem_cons_of_mem
  apply List.mem_append_left
  show Event.deleteCall "s2" {"c.txt"} ∈ deleteBlock wCfg wEnv "s2" {"c.txt"}
  unfold deleteBlock
  rw [if_pos (⟨rfl, by decide⟩ :
    wCfg.auto_delete = true ∧ ({"c.txt"} : Finset String).Nonempty)]
  apply List.mem_cons_of_mem
  rw [if_pos (by decide : strLower (wEnv.confirm "s2") = "tak")]
  exact List.mem_cons_self _ _

/-- Witness for C2 at a concrete run in which the deletion call does occur. -/
theorem c2_delete_witness :
    wCfg.auto_delete = true ∧ ({"c.txt"} : Finset String).Nonempty ∧
      strLower (wEnv.confirm "s2") = "tak" ∧
      Event.prompt "s2" ({"c.txt"} : Finset String).card ∈
        compare_directories wCfg wEnv :=
  c2_delete_gated_by_confirmation wCfg wEnv "s2" {"c.txt"} w_deleteCall_mem

/-- Witness for C4: target `s1` fails to connect yet target `s2` is still
processed, and `s1`'s whole iteration is header, logged error, release. -/
theorem c4_errors_witness :
    Event.header "s2" ∈ compare_directories wCfg wEnv ∧
    processServer wCfg wEnv (get_local_files wEnv.H wEnv.localTree) "s1" =
      [Event.header "s1", Event.errorCaught "s1" "unreachable",
        Event.sshClosed "s1"] :=
  ⟨(c4_per_target_errors_contained wCfg wEnv).1 "s2" (by decide),
   (c4_per_target_errors_contained wCfg wEnv).2.1 "s1" "unreachable" rfl⟩

theorem w_reportDiff_mem :
    Event.reportDiff ∅ {"c.txt"} ∅ ∈ compare_directories wCfg wEnv := by
  simp only [compare_directories]
  apply List.mem_cons_of_mem
  apply List.mem_flatMap.mpr
  refine ⟨"s2", by decide, ?_⟩
  simp only [processServer]
  apply List.mem_cons_of_mem
  apply List.mem_append_left
  rw [tryBlock_ok wEnv_connect_s2 w_scan_s2, w_compare]
  exact List.mem_cons_self _ _

/-- Witness for C9: the diff reported for target `s2` was computed by
`compare_files` against the single local snapshot of the run. -/
theorem c9_local_snapshot_witness :
    ∃ server ∈ wCfg.servers, ∃ dest_files,
      get_remote_files wEnv.H (wEnv.remoteRoot server) wCfg.remote_path =
        .ok dest_files ∧
      ((∅ : Finset String), ({"c.txt"} : Finset String), (∅ : Finset String)) =
        v1.compare_files (get_local_files wEnv.H wEnv.localTree) dest_files :=
  (c9_local_snapshot_once wCfg wEnv).2.2 ∅ {"c.txt"} ∅ w_reportDiff_mem

/-- Witness for C5: at a concrete digest function and byte content, chunk
sizes agree and a concrete digest character is lowercase hexadecimal. -/
theorem c5_checksum_witness :
    checksumWithChunkSize (fun _ => [171]) 1 [1, 2, 3] =
      checksumWithChunkSize (fun _ => [171]) 4096 [1, 2, 3] ∧
    isLowerHexDigit 'a' := by
  have hmem : 'a' ∈ (v1.calculate_local_checksum (fun _ => [171]) [1, 2, 3]).data := by
    unfold v1.calculate_local_checksum
    rw [feedIter_eq_append 4096 (by norm_num) [1, 2, 3] []]
    decide
  exact ⟨(c5_checksum_chunk_invariance (fun _ => [171]) [1, 2, 3]).1,
    (c5_checksum_chunk_invariance (fun _ => [171]) [1, 2, 3]).2.2.2 'a' hmem⟩
